import Mathlib

/-!
Verification development for the musana repository: a shallow embedding of
the numeral-parsing and degree-arithmetic core (src/experiment.py and
src/harmonytypes/numeral.py) together with theorems checking the
natural-language specification against it.

Python exceptions are modelled by the `Except PyError` monad; Python `int`
is modelled by `Int` (Python `%` on a positive modulus agrees with
`Int.emod`); strings are modelled by `String` / `List Char`.
-/

/-- Model of the Python exceptions raised by the embedded code.
`noRegexMatch` models the `ValueError` raised when a regex does not match;
it carries the raw input string, as the original message does. -/
inductive PyError where
  | noRegexMatch (raw : String)
  | valueError (msg : String)
  | typeError (msg : String)
  | attributeError (attr : String)
deriving DecidableEq

instance exceptDecEq {ε α : Type} [DecidableEq ε] [DecidableEq α] :
    DecidableEq (Except ε α) := fun a b =>
  match a, b with
  | .error e, .error f =>
      if h : e = f then .isTrue (by subst h; rfl)
      else .isFalse (fun hh => h (Except.error.inj hh))
  | .ok x, .ok y =>
      if h : x = y then .isTrue (by subst h; rfl)
      else .isFalse (fun hh => h (Except.ok.inj hh))
  | .error _, .ok _ => .isFalse (fun hh => Except.noConfusion hh)
  | .ok _, .error _ => .isFalse (fun hh => Except.noConfusion hh)

/-!
A small backtracking regular-expression engine mirroring the semantics of
the Python `re` module as used by the source: alternation tries the left
branch first, `*`, `+` and `?` are greedy, failure backtracks, and a capture
group records the exact substring consumed by its most recent match.  Group
captures are unwound on backtracking because failed branches simply discard
their capture list.  `re.match` anchoring at the start of the string and the
final `$` of the source patterns are realised by the runner, which demands
an empty remainder.
-/

/-- Regex abstract syntax: empty word, single character, character class,
concatenation, prioritized alternation, greedy option, greedy star and a
numbered capture group. -/
inductive RE where
  | eps : RE
  | lit : Char → RE
  | cls : List Char → RE
  | seq : RE → RE → RE
  | alt : RE → RE → RE
  | opt : RE → RE
  | star : RE → RE
  | grp : Nat → RE → RE
deriving DecidableEq

/-- Capture state: group number paired with the captured characters; the
most recent capture of a group stands first. -/
abbrev Caps := List (Nat × List Char)

def capSet (caps : Caps) (n : Nat) (v : List Char) : Caps := (n, v) :: caps

def capGet (caps : Caps) (n : Nat) : Option (List Char) :=
  (caps.find? (fun p => p.1 = n)).map (fun p => p.2)

/-- CPS backtracking matcher.  The fuel only bounds the recursion depth; it
is chosen large enough (linear in the input length) that it is never
exhausted on a run the Python engine would perform, since every star
iteration must consume at least one character.  The guard
`s1.length < s.length` mirrors the Python rule that an empty-width loop
iteration is not repeated. -/
def mrun : Nat → RE → List Char → Caps → (List Char → Caps → Option Caps) → Option Caps
  | 0, _, _, _, _ => none
  | _ + 1, .eps, s, caps, k => k s caps
  | _ + 1, .lit c, s, caps, k =>
      match s with
      | [] => none
      | c1 :: rest => if c1 = c then k rest caps else none
  | _ + 1, .cls cs, s, caps, k =>
      match s with
      | [] => none
      | c1 :: rest => if cs.contains c1 then k rest caps else none
  | f + 1, .seq a b, s, caps, k =>
      mrun f a s caps (fun s1 caps1 => mrun f b s1 caps1 k)
  | f + 1, .alt a b, s, caps, k =>
      (mrun f a s caps k).orElse (fun _ => mrun f b s caps k)
  | f + 1, .opt a, s, caps, k =>
      (mrun f a s caps k).orElse (fun _ => k s caps)
  | f + 1, .star a, s, caps, k =>
      (mrun f a s caps (fun s1 caps1 =>
        if s1.length < s.length then mrun f (.star a) s1 caps1 k else none)).orElse
        (fun _ => k s caps)
  | f + 1, .grp n a, s, caps, k =>
      mrun f a s caps (fun s1 caps1 =>
        k s1 (capSet caps1 n (s.take (s.length - s1.length))))

/-- Literal word as a regex. -/
def rlit (s : String) : RE :=
  s.toList.foldr (fun c acc => RE.seq (RE.lit c) acc) RE.eps

/-- Prioritized alternation of a list of regexes, first entry tried first. -/
def ralts : List RE → RE
  | [] => RE.eps
  | [r] => r
  | r :: rs => RE.alt r (ralts rs)

/-- Greedy `+`: one copy followed by a greedy star. -/
def rplus (r : RE) : RE := RE.seq r (RE.star r)

/-- Structural size of a regex, used to compute a sufficient fuel bound. -/
def reSize : RE → Nat
  | .eps => 1
  | .lit _ => 1
  | .cls _ => 1
  | .seq a b => reSize a + reSize b + 1
  | .alt a b => reSize a + reSize b + 1
  | .opt a => reSize a + 1
  | .star a => reSize a + 1
  | .grp _ a => reSize a + 1

/-- Run a regex anchored at both ends (`re.match` plus the trailing `$` of
the source patterns): the whole input must be consumed. -/
def reFullMatch (r : RE) (cs : List Char) : Option Caps :=
  mrun ((reSize r + 2) * (cs.length + 2) + 100) r cs []
    (fun rest caps => if rest.isEmpty then some caps else none)

namespace Experiment

/-- Embedding of `Degree` from src/experiment.py: a scale degree `number`
with a signed accidental count `alteration` (the `bool` arm of the Python
annotation `int | bool` is never produced by the embedded operations). -/
structure Degree where
  number : Int
  alteration : Int
deriving DecidableEq

/-- `Degree.__add__`: compose the 0-based steps modulo 7, re-bias to
1-based; the second operand supplies the alteration. -/
def Degree.add (a b : Degree) : Degree :=
  ⟨((a.number - 1) + (b.number - 1)) % 7 + 1, b.alteration⟩

/-- `Degree.__sub__`: as `add` with subtraction on the 0-based numbers. -/
def Degree.sub (a b : Degree) : Degree :=
  ⟨((a.number - 1) - (b.number - 1)) % 7 + 1, b.alteration⟩

instance : Add Degree := ⟨Degree.add⟩
instance : Sub Degree := ⟨Degree.sub⟩

/-- Numeric value of a digit run. -/
def digitsVal (l : List Char) : Int :=
  (l.foldl (fun a c => a * 10 + (c.toNat - 48)) 0 : Nat)

/-- `Degree.parse_arabic_degree`: the pattern
`^((?P<modifiers>(b*)|(#*))?(?P<number>([0-9]+)))$` demands an all-`b` or
all-`#` accidental run followed by one or more digits; since digits are
neither `b` nor `#`, the decomposition strips the maximal run.  Alteration
is `len(modifiers)` when the run contains `#`, else `-len(modifiers)`; the
digits convert without any modulo reduction. -/
def Degree.parse_arabic_degree (s : String) : Except PyError Degree :=
  let cs := s.toList
  let bs := cs.takeWhile (fun c => c = 'b')
  let afterB := cs.dropWhile (fun c => c = 'b')
  let hs := cs.takeWhile (fun c => c = '#')
  let afterH := cs.dropWhile (fun c => c = '#')
  if !afterB.isEmpty && afterB.all Char.isDigit then
    .ok ⟨digitsVal afterB, -(bs.length : Int)⟩
  else if !afterH.isEmpty && afterH.all Char.isDigit then
    .ok ⟨digitsVal afterH, (hs.length : Int)⟩
  else .error (.noRegexMatch s)

def isIChar (c : Char) : Bool := c = 'i' || c = 'I'

def isVChar (c : Char) : Bool := c = 'v' || c = 'V'

def isBChar (c : Char) : Bool := c = 'b' || c = 'B'

/-- Whether a character sequence matches `(IV|V?I{0,3})` in full, under the
`re.I` flag of `Degree.parse_numeral_degree` (so any mix of cases); the
empty sequence matches, as in the source pattern. -/
def romanFormCI (r : List Char) : Bool :=
  (match r with
   | [a, c] => isIChar a && isVChar c
   | _ => false)
  ||
  (match r with
   | [] => true
   | c :: rest =>
       if isVChar c then rest.all isIChar && rest.length ≤ 3
       else r.all isIChar && r.length ≤ 3)

/-- Whether `^(?P<modifiers>(b*)|(#*))(?P<roman_numeral>(IV|V?I{0,3}))$`
(with `re.I`) matches the whole input.  Under `re.I` the `b*` arm also
consumes `B`; since no modifier character can begin the roman-numeral part,
only the maximal accidental run can lead to a match. -/
def ndMatches (cs : List Char) : Bool :=
  romanFormCI (cs.dropWhile isBChar) || romanFormCI (cs.dropWhile (fun c => c = '#'))

/-- `Degree.parse_numeral_degree`: when the regex fails, the source
subscripts `None` (`nd_match['roman_numeral']`), a `TypeError`.  When it
matches, the source evaluates `Degree.numeral_scale_degree_dict.get(...)`;
but line 14 binds `numeral_scale_degree_dict = typing.ClassVar[{...}]`, a
subscripted special form (not a dict), and on Python 3.11+ (required by the
uses of `typing.Self`) attribute access `.get` on that `_GenericAlias`
delegates to the `ClassVar` special form and raises `AttributeError('get')`.
So the function raises on every input and never builds a `Degree`. -/
def Degree.parse_numeral_degree (s : String) : Except PyError Degree :=
  if ndMatches s.toList then .error (.attributeError "get")
  else .error (.typeError "NoneType object is not subscriptable")

/-- Decide whether an `Except` value is a success. -/
def exceptIsOk {ε α : Type} : Except ε α → Bool
  | .ok _ => true
  | .error _ => false

/-- Embedding of the `SingleNumeralParts` dataclass of src/experiment.py. -/
structure SingleNumeralParts where
  modifiers : String
  roman_numeral : String
  form : String
  figbass : String
  added_tones : String
  replacement_tones : String
deriving DecidableEq

namespace SingleNumeralParts

/-- Group numbers of the six named groups of `_sn_regex`. -/
def gModifiers : Nat := 0
def gRoman : Nat := 1
def gForm : Nat := 2
def gFigbass : Nat := 3
def gAdded : Nat := 4
def gRepl : Nat := 5

/-- The class-level `_sn_regex` of `SingleNumeralParts`, transcribed
alternative for alternative and in source order:
`^(?P<modifiers>(b*)|(#*))?`
`(?P<roman_numeral>(VII|VI|V|IV|III|II|I|vii|vi|v|iv|iii|ii|i|Ger|It|Fr|@none))`
`(?P<form>(%|o|\+|M|\+M))?`
`(?P<figbass>(7|65|43|42|2|64|6))?`
`(\(((?P<added_tones>((\+)([#b])?([2-8]))+|(([#b])?(9|1[0-4]))+)?|`
`(?P<replacement_tones>(([#b])?([2-8]))+)?)\))?$` -/
def snRegex : RE :=
  let modifiers := RE.opt (RE.grp gModifiers
    (RE.alt (RE.star (RE.lit ('b'))) (RE.star (RE.lit ('#')))))
  let roman := RE.grp gRoman (ralts
    [rlit ("VII"), rlit ("VI"), rlit ("V"), rlit ("IV"), rlit ("III"),
     rlit ("II"), rlit ("I"), rlit ("vii"), rlit ("vi"), rlit ("v"),
     rlit ("iv"), rlit ("iii"), rlit ("ii"), rlit ("i"), rlit ("Ger"),
     rlit ("It"), rlit ("Fr"), rlit ("@none")])
  let form := RE.opt (RE.grp gForm (ralts
    [rlit ("%"), rlit ("o"), rlit ("+"), rlit ("M"), rlit ("+M")]))
  let figbass := RE.opt (RE.grp gFigbass (ralts
    [rlit ("7"), rlit ("65"), rlit ("43"), rlit ("42"), rlit ("2"),
     rlit ("64"), rlit ("6")]))
  let accidental := RE.opt (RE.cls ['#', 'b'])
  let interval28 := RE.cls ['2', '3', '4', '5', '6', '7', '8']
  let added := RE.alt
    (rplus (RE.seq (RE.lit ('+')) (RE.seq accidental interval28)))
    (rplus (RE.seq accidental
      (RE.alt (RE.lit ('9'))
        (RE.seq (RE.lit ('1')) (RE.cls ['0', '1', '2', '3', '4'])))))
  let repl := rplus (RE.seq accidental interval28)
  let parens := RE.opt (RE.seq (RE.lit ('('))
    (RE.seq (RE.alt (RE.opt (RE.grp gAdded added)) (RE.opt (RE.grp gRepl repl)))
      (RE.lit (')'))))
  RE.seq modifiers (RE.seq roman (RE.seq form (RE.seq figbass parens)))

/-- Anchored match of `_sn_regex` against a character list. -/
def snMatch (cs : List Char) : Option Caps := reFullMatch snRegex cs

/-- `SingleNumeralParts.parse`: on regex failure raise the `ValueError`
carrying the raw string; on success read the six named groups, replacing a
missing (or empty, which Python treats identically through its falsiness
test) capture by the empty string. -/
def parse (numeral_str : String) : Except PyError SingleNumeralParts :=
  match snMatch numeral_str.toList with
  | none => .error (.noRegexMatch numeral_str)
  | some caps =>
      .ok { modifiers := String.mk ((capGet caps gModifiers).getD []),
            roman_numeral := String.mk ((capGet caps gRoman).getD []),
            form := String.mk ((capGet caps gForm).getD []),
            figbass := String.mk ((capGet caps gFigbass).getD []),
            added_tones := String.mk ((capGet caps gAdded).getD []),
            replacement_tones := String.mk ((capGet caps gRepl).getD []) }

end SingleNumeralParts

end Experiment

namespace HarmonyTypes

/-- Modelled from the spec: the external pitchtypes `SpelledPitchClass`
capability (spec section 1 and 6) reduced to what the core needs — a
diatonic letter (0 = C, 1 = D, ..., 6 = B) plus a signed accidental
count. -/
structure SpelledPitchClass where
  letter : Fin 7
  alteration : Int
deriving DecidableEq

/-- Modelled from the spec: key modes (section 3); only the two modes the
embedded code constructs. -/
inductive Mode where
  | major
  | natural_minor
deriving DecidableEq

/-- Modelled from the spec: `Key` of the missing module harmonytypes.key
(section 4.2): a tonic spelled pitch class and a mode. -/
structure Key where
  tonic : SpelledPitchClass
  mode : Mode
deriving DecidableEq

/-- Semitone position of each natural letter C D E F G A B. -/
def naturalSemi (l : Nat) : Int := ([0, 2, 4, 5, 7, 9, 11].getD l 0 : Int)

/-- Modelled from the spec: cumulative interval pattern of each mode
(section 4.2, natural minor W-H-W-W-H-W-W). -/
def modePattern : Mode → List Int
  | .major => [0, 2, 4, 5, 7, 9, 11]
  | .natural_minor => [0, 2, 3, 5, 7, 8, 10]

/-- Embedding of `Degree` of the missing module harmonytypes.degree:
1-based scale position and signed accidental count (spec section 3). -/
structure Degree where
  number : Int
  alteration : Int
deriving DecidableEq

/-- Modelled from the spec: the diatonic scale member of a key at a 1-based
degree number (section 4.2) — the letter advances `number - 1` steps from
the tonic and the accidental is fixed so that the semitone distance from
the tonic equals the mode pattern entry. -/
def Key.scaleTone (k : Key) (number : Int) : SpelledPitchClass :=
  let i : Nat := ((number - 1).emod 7).toNat
  let l : Fin 7 := ⟨(k.tonic.letter.val + i) % 7, Nat.mod_lt _ (by decide)⟩
  let natDist : Int := (naturalSemi l.val - naturalSemi k.tonic.letter.val).emod 12
  ⟨l, k.tonic.alteration + (modePattern k.mode).getD i 0 - natDist⟩

/-- Modelled from the spec: `Key.find_spc` (section 4.2) — the scale member
at the degree number, chromatically altered by the degree alteration. -/
def Key.find_spc (k : Key) (d : Degree) : SpelledPitchClass :=
  let t := k.scaleTone d.number
  ⟨t.letter, t.alteration + d.alteration⟩

/-- Modelled from the spec: `Key.find_degree` (section 4.2) — the inverse
lookup; the degree number is fixed by the letter distance from the tonic
and the alteration is the accidental difference to the diatonic scale
member. -/
def Key.find_degree (k : Key) (spc : SpelledPitchClass) : Degree :=
  let n : Nat := (spc.letter.val + 7 - k.tonic.letter.val) % 7
  ⟨(n : Int) + 1, spc.alteration - (k.scaleTone ((n : Int) + 1)).alteration⟩

/-- Letter index of a key-name character, case-insensitively. -/
def letterIndex (c : Char) : Option (Fin 7) :=
  if c = 'C' || c = 'c' then some 0
  else if c = 'D' || c = 'd' then some 1
  else if c = 'E' || c = 'e' then some 2
  else if c = 'F' || c = 'f' then some 3
  else if c = 'G' || c = 'g' then some 4
  else if c = 'A' || c = 'a' then some 5
  else if c = 'B' || c = 'b' then some 6
  else none

/-- Modelled from the spec: `Key.from_string` (section 4.2) — an upper-case
tonic letter gives a major key, a lower-case one a natural-minor key, with
an optional trailing accidental run on the tonic letter. -/
def Key.from_string (key_str : String) : Except PyError Key :=
  match key_str.toList with
  | [] => .error (.valueError key_str)
  | c :: rest =>
      match letterIndex c with
      | none => .error (.valueError key_str)
      | some l =>
          if rest.all (fun x => x = 'b') then
            .ok ⟨⟨l, -(rest.length : Int)⟩, if c.isUpper then .major else .natural_minor⟩
          else if rest.all (fun x => x = '#') then
            .ok ⟨⟨l, (rest.length : Int)⟩, if c.isUpper then .major else .natural_minor⟩
          else .error (.valueError key_str)

/-- The fixed roman-numeral table shared by spec section 4.1 and the
sibling table in src/experiment.py line 14. -/
def romanTable : List (List Char × Int) :=
  [(['i'], 1), (['i', 'i'], 2), (['i', 'i', 'i'], 3), (['i', 'v'], 4),
   (['v'], 5), (['v', 'i'], 6), (['v', 'i', 'i'], 7),
   (['I'], 1), (['I', 'I'], 2), (['I', 'I', 'I'], 3), (['I', 'V'], 4),
   (['V'], 5), (['V', 'I'], 6), (['V', 'I', 'I'], 7)]

/-- Modelled from the spec: `Degree.from_string` of the missing module
harmonytypes.degree, following `parse_roman` of section 4.1 — an all-`#` or
all-`b` accidental run, then a roman numeral I-VII drawn from the fixed
table (upper or lower case); alteration is +1 per `#` and -1 per `b`; an
unmatched roman-numeral token is an error, never a silent default. -/
def Degree.from_string (degree_str : String) : Except PyError Degree :=
  let cs := degree_str.toList
  let bs := cs.takeWhile (fun c => c = 'b')
  let afterB := cs.dropWhile (fun c => c = 'b')
  let hs := cs.takeWhile (fun c => c = '#')
  let afterH := cs.dropWhile (fun c => c = '#')
  match (romanTable.find? (fun p => p.1 = afterB)) with
  | some p => .ok ⟨p.2, -(bs.length : Int)⟩
  | none =>
      match (romanTable.find? (fun p => p.1 = afterH)) with
      | some p => .ok ⟨p.2, (hs.length : Int)⟩
      | none => .error (.valueError degree_str)

/-- Python `str.isupper` over ASCII: at least one cased character and no
lower-case character. -/
def pyIsUpper (s : String) : Bool :=
  s.toList.any Char.isUpper && !(s.toList.any Char.isLower)

/-- The `Literal["major", "minor"]` quality of `SimpleNumeral`. -/
inductive Quality where
  | major
  | minor
deriving DecidableEq

/-- Embedding of `SimpleNumeral` from src/harmonytypes/numeral.py. -/
structure SimpleNumeral where
  numeral_str : String
  key : Key
  degree : Degree
  quality : Quality
deriving DecidableEq

/-- `SimpleNumeral.from_string`: the degree comes from
`Degree.from_string` (which may raise) and the quality is purely
case-derived via `numeral_str.isupper()`. -/
def SimpleNumeral.from_string (numeral_str : String) (key : Key) :
    Except PyError SimpleNumeral :=
  match Degree.from_string numeral_str with
  | .error e => .error e
  | .ok d =>
      .ok ⟨numeral_str, key, d, if pyIsUpper numeral_str then .major else .minor⟩

/-- `SimpleNumeral.root`: resolve the degree in the stored key. -/
def SimpleNumeral.root (sn : SimpleNumeral) : SpelledPitchClass :=
  sn.key.find_spc sn.degree

/-- `SimpleNumeral.key_if_tonicized`: a key on the resolved root, major for
major quality and natural minor for minor quality. -/
def SimpleNumeral.key_if_tonicized (sn : SimpleNumeral) : Key :=
  ⟨sn.root, match sn.quality with | .major => .major | .minor => .natural_minor⟩

/-- `numeral_str.split("/", maxsplit=1)`: the segment before the first `/`
and the remainder after it, or `none` when no `/` occurs. -/
def splitSlash : List Char → Option (List Char × List Char)
  | [] => none
  | c :: rest =>
      if c = '/' then some ([], rest)
      else
        match splitSlash rest with
        | none => none
        | some (l, r) => some (c :: l, r)

theorem splitSlash_append (L R : List Char) (h : '/' ∉ L) :
    splitSlash (L ++ '/' :: R) = some (L, R) := by
  induction L with
  | nil => simp [splitSlash]
  | cons c cs ih =>
      have hc : ¬ c = '/' := fun e => h (by simp [e])
      have hcs : '/' ∉ cs := fun m => h (List.mem_cons_of_mem _ m)
      simp [splitSlash, hc, ih hcs]

theorem splitSlash_none (s : List Char) (h : '/' ∉ s) : splitSlash s = none := by
  induction s with
  | nil => simp [splitSlash]
  | cons c cs ih =>
      have hc : ¬ c = '/' := fun e => h (by simp [e])
      have hcs : '/' ∉ cs := fun m => h (List.mem_cons_of_mem _ m)
      simp [splitSlash, hc, ih hcs]

theorem splitSlash_shorter :
    ∀ (s : List Char) (l r : List Char), splitSlash s = some (l, r) →
      r.length < s.length := by
  intro s
  induction s with
  | nil => intro l r h; simp [splitSlash] at h
  | cons c cs ih =>
      intro l r h
      by_cases hc : c = '/'
      · simp [splitSlash, hc] at h
        simp [← h.2]
      · simp only [splitSlash, hc, if_false] at h
        match hs : splitSlash cs with
        | none => rw [hs] at h; simp at h
        | some (l2, r2) =>
            rw [hs] at h
            simp at h
            have := ih l2 r2 hs
            simp [← h.2]
            omega

/-- Embedding of `NumeralChain`: a head `SimpleNumeral`, an optional tail
chain, and the key field every constructed node stores (the source passes
the originally supplied key to every recursive call). -/
inductive NumeralChain where
  | mk (head : SimpleNumeral) (tail : Option NumeralChain) (key : Key)

def NumeralChain.head : NumeralChain → SimpleNumeral
  | .mk h _ _ => h

def NumeralChain.tail : NumeralChain → Option NumeralChain
  | .mk _ t _ => t

def NumeralChain.key : NumeralChain → Key
  | .mk _ _ k => k

/-- `NumeralChain.parse` on character lists, with an explicit recursion
bound: split at the first `/`; when one occurs, resolve the right-hand
remainder first against the same key, then parse the left-hand segment in
the key obtained by tonicizing the tail head; otherwise build a single node
carrying the supplied key.  The remainder is strictly shorter than the
input, so any fuel exceeding the input length never runs out. -/
def NumeralChain.parseFuel : Nat → List Char → Key → Except PyError NumeralChain
  | 0, _, _ => .error (.valueError "recursion limit")
  | f + 1, s, key =>
      match splitSlash s with
      | some (l, r) =>
          match NumeralChain.parseFuel f r key with
          | .error e => .error e
          | .ok tail =>
              match SimpleNumeral.from_string (String.mk l) tail.head.key_if_tonicized with
              | .error e => .error e
              | .ok head => .ok (.mk head (some tail) key)
      | none =>
          match SimpleNumeral.from_string (String.mk s) key with
          | .error e => .error e
          | .ok head => .ok (.mk head none key)

/-- `NumeralChain.parse` on character lists. -/
def NumeralChain.parseAux (s : List Char) (key : Key) :
    Except PyError NumeralChain :=
  NumeralChain.parseFuel (s.length + 1) s key

theorem NumeralChain.parseFuel_congr (f1 : Nat) :
    ∀ (f2 : Nat) (s : List Char) (key : Key), s.length < f1 → s.length < f2 →
      NumeralChain.parseFuel f1 s key = NumeralChain.parseFuel f2 s key := by
  induction f1 with
  | zero => intro f2 s key h1 _; exact absurd h1 (by omega)
  | succ g1 ih =>
      intro f2 s key h1 h2
      cases f2 with
      | zero => exact absurd h2 (by omega)
      | succ g2 =>
          simp only [NumeralChain.parseFuel]
          cases hsp : splitSlash s with
          | none => rfl
          | some lr =>
              obtain ⟨l, r⟩ := lr
              have hr := splitSlash_shorter s l r hsp
              dsimp only
              rw [ih g2 r key (by omega) (by omega)]

/-- One-step unfolding of `NumeralChain.parseAux`. -/
theorem NumeralChain.parseAux_eq (s : List Char) (key : Key) :
    NumeralChain.parseAux s key =
      match splitSlash s with
      | some (l, r) =>
          match NumeralChain.parseAux r key with
          | .error e => .error e
          | .ok tail =>
              match SimpleNumeral.from_string (String.mk l) tail.head.key_if_tonicized with
              | .error e => .error e
              | .ok head => .ok (.mk head (some tail) key)
      | none =>
          match SimpleNumeral.from_string (String.mk s) key with
          | .error e => .error e
          | .ok head => .ok (.mk head none key) := by
  show NumeralChain.parseFuel (s.length + 1) s key = _
  simp only [NumeralChain.parseFuel]
  cases hsp : splitSlash s with
  | none => rfl
  | some lr =>
      obtain ⟨l, r⟩ := lr
      have hr := splitSlash_shorter s l r hsp
      dsimp only
      rw [NumeralChain.parseFuel_congr s.length (r.length + 1) r key (by omega) (by omega)]
      rfl

/-- `NumeralChain.parse` on strings. -/
def NumeralChain.parse (numeral_str : String) (key : Key) :
    Except PyError NumeralChain :=
  NumeralChain.parseAux numeral_str.toList key

/-- `NumeralChain.key_if_tonicized`: tonicize the chain head. -/
def NumeralChain.key_if_tonicized (c : NumeralChain) : Key :=
  c.head.key_if_tonicized

/-- `NumeralChain.degree`: the degree, within the chain key, of the tonic
of the tonicized key. -/
def NumeralChain.degree (c : NumeralChain) : Degree :=
  c.key.find_degree c.key_if_tonicized.tonic

/-- A value read from a dcml tsv cell, as the Python dynamic types relevant
to `Numeral.from_df` distinguish them: a float NaN, a finite float (carried
by its `int(...)` truncation), a tuple of ints, a string, or a value of any
other Python type (tagged with its type name). -/
inductive DFVal where
  | nan : DFVal
  | floatVal : Int → DFVal
  | tup : List Int → DFVal
  | str : String → DFVal
  | other : String → DFVal
deriving DecidableEq

/-- Python `int(...)` applied to a string: optional surrounding spaces, an
optional sign, then one or more digits. -/
def pyParseInt (s : String) : Option Int :=
  let cs := ((s.toList.dropWhile (fun c => c = ' ')).reverse.dropWhile
    (fun c => c = ' ')).reverse
  match cs with
  | '-' :: ds =>
      if !ds.isEmpty && ds.all Char.isDigit then some (-(Experiment.digitsVal ds))
      else none
  | '+' :: ds =>
      if !ds.isEmpty && ds.all Char.isDigit then some (Experiment.digitsVal ds)
      else none
  | ds =>
      if !ds.isEmpty && ds.all Char.isDigit then some (Experiment.digitsVal ds)
      else none

/-- `int(x)` lifted to `Except`: raises `ValueError` on a non-numeric
string. -/
def pyParseIntE (s : String) : Except PyError Int :=
  match pyParseInt s with
  | some n => .ok n
  | none => .error (.valueError s)

/-- Python `s.split(',')` on character lists: cut at every comma, keeping
empty pieces (the empty string yields one empty piece). -/
def splitCommaAux : List Char → List Char → List (List Char)
  | [], acc => [acc.reverse]
  | c :: rest, acc =>
      if c = ',' then acc.reverse :: splitCommaAux rest []
      else splitCommaAux rest (c :: acc)

/-- Python `s.split(',')` on strings. -/
def pySplitComma (s : String) : List String :=
  (splitCommaAux s.toList []).map String.mk

/-- `list(int(x) for x in pieces)`: convert left to right, raising at the
first non-numeric piece. -/
def intListOfStrs : List String → Except PyError (List Int)
  | [] => .ok []
  | p :: ps =>
      match pyParseIntE p with
      | .error e => .error e
      | .ok n =>
          match intListOfStrs ps with
          | .error e => .error e
          | .ok ns => .ok (n :: ns)

theorem intListOfStrs_ok :
    ∀ (ps : List String),
      ps.all (fun p => (pyParseInt p).isSome) = true →
      intListOfStrs ps = .ok (ps.filterMap pyParseInt) := by
  intro ps
  induction ps with
  | nil => intro _; rfl
  | cons p ps ih =>
      intro h
      simp only [List.all_cons, Bool.and_eq_true] at h
      cases hp : pyParseInt p with
      | none => rw [hp] at h; simp at h
      | some n =>
          simp only [intListOfStrs, pyParseIntE, hp, ih h.2, List.filterMap_cons, hp]

/-- `standardize_input` of `Numeral.from_df`: NaN gives the empty list, a
finite float a one-element list, a tuple its list, a string the ints of its
comma-separated pieces (`int` may raise on a bad piece), and any other type
raises `TypeError`. -/
def standardize_input : DFVal → Except PyError (List Int)
  | .nan => .ok []
  | .floatVal x => .ok [x]
  | .tup l => .ok l
  | .str s => intListOfStrs (pySplitComma s)
  | .other t => .error (.typeError t)

/-- Python `int(...)` applied to a dynamic cell value, as used on the
`root` and `bass_note` columns of `Numeral.from_df`: `int(nan)` raises
`ValueError`, `int` of a tuple raises `TypeError`. -/
def pyInt : DFVal → Except PyError Int
  | .nan => .error (.valueError "cannot convert float NaN to integer")
  | .floatVal x => .ok x
  | .tup _ => .error (.typeError "int() argument must not be a tuple")
  | .str s => pyParseIntE s
  | .other t => .error (.typeError t)

/-- The tone-field normalization portion of `Numeral.from_df` (lines
159-167 of src/harmonytypes/numeral.py), in source order: `chord_tones`
and `added_tones` pass through `standardize_input`, while `root` and
`bass_note` are converted with a bare `int(...)`.  The degree and
pitch-class mapping wrapped around these integers is omitted; any raised
conversion error occurs before it. -/
def from_df_toneFields (chord_tones added_tones root bass_note : DFVal) :
    Except PyError (List Int × List Int × Int × Int) :=
  match standardize_input chord_tones with
  | .error e => .error e
  | .ok ct =>
      match standardize_input added_tones with
      | .error e => .error e
      | .ok ad =>
          match pyInt root with
          | .error e => .error e
          | .ok r =>
              match pyInt bass_note with
              | .error e => .error e
              | .ok b => .ok (ct, ad, r, b)

end HarmonyTypes

theorem string_toList_append (a b : String) :
    (a ++ b).toList = a.toList ++ b.toList := rfl

/-!
Claim theorems.
-/

/-- The chain of C1: `NumeralChain.parse("ii/V", Key.from_string("C"))`. -/
def c1chain : Except PyError HarmonyTypes.NumeralChain :=
  match HarmonyTypes.Key.from_string ("C") with
  | .error e => .error e
  | .ok k => HarmonyTypes.NumeralChain.parse ("ii/V") k

/-- Tonic of the tonicized key of a successfully parsed chain. -/
def chainTonic (e : Except PyError HarmonyTypes.NumeralChain) :
    Option HarmonyTypes.SpelledPitchClass :=
  match e with
  | .ok c => some c.key_if_tonicized.tonic
  | .error _ => none

/-- Outer degree of a successfully parsed chain. -/
def chainDegreeOf (e : Except PyError HarmonyTypes.NumeralChain) :
    Option HarmonyTypes.Degree :=
  match e with
  | .ok c => some c.degree
  | .error _ => none

/-- Claim C1 is false on the code: for the chain parsed from `ii/V` in the
key of C major, `key_if_tonicized()` has tonic A (letter index 5), not E
(letter index 2), and `degree()` is degree 6 of C, not degree 5 — the chain
resolves `V` in C as G major and `ii` of G as A. -/
theorem c1_counterexample :
    chainTonic c1chain = some ⟨5, 0⟩ ∧
    (⟨5, 0⟩ : HarmonyTypes.SpelledPitchClass) ≠ ⟨2, 0⟩ ∧
    chainDegreeOf c1chain = some ⟨6, 0⟩ ∧
    (⟨6, 0⟩ : HarmonyTypes.Degree) ≠ ⟨5, 0⟩ := by decide

/-- Claim C1 amended: for the chain parsed from `ii/V` in C major,
`key_if_tonicized()` returns a key whose tonic is A and `degree()` returns
degree 6 (of A) in key C, exactly as the docstring of
`NumeralChain.degree` states. -/
theorem c1_amended_values :
    chainTonic c1chain = some ⟨5, 0⟩ ∧
    chainDegreeOf c1chain = some ⟨6, 0⟩ := by decide

/-- Claim C2: `NumeralChain.parse` splits at the first `/` only — for a
left segment without `/`, it first resolves the remainder against the
supplied key, then parses the left segment as a SimpleNumeral in the key
tonicizing the tail head; with no `/` at all it builds a single node (tail
`none`) whose head carries the caller-supplied key. -/
theorem c2_chain_recursion :
    (∀ (L R : String) (key : HarmonyTypes.Key), '/' ∉ L.toList →
      HarmonyTypes.NumeralChain.parse (L ++ "/" ++ R) key =
        match HarmonyTypes.NumeralChain.parse R key with
        | .error e => .error e
        | .ok tail =>
            match HarmonyTypes.SimpleNumeral.from_string L tail.head.key_if_tonicized with
            | .error e => .error e
            | .ok head => .ok (.mk head (some tail) key)) ∧
    (∀ (s : String) (key : HarmonyTypes.Key), '/' ∉ s.toList →
      HarmonyTypes.NumeralChain.parse s key =
        match HarmonyTypes.SimpleNumeral.from_string s key with
        | .error e => .error e
        | .ok head => .ok (.mk head none key)) := by
  constructor
  · intro L R key h
    have ht : (L ++ "/" ++ R).toList = L.toList ++ '/' :: R.toList := by
      rw [string_toList_append, string_toList_append, List.append_assoc]
      rfl
    show HarmonyTypes.NumeralChain.parseAux _ key = _
    rw [ht, HarmonyTypes.NumeralChain.parseAux_eq,
      HarmonyTypes.splitSlash_append _ _ h]
    rfl
  · intro s key h
    show HarmonyTypes.NumeralChain.parseAux _ key = _
    rw [HarmonyTypes.NumeralChain.parseAux_eq, HarmonyTypes.splitSlash_none _ h]
    rfl

/-- Witness for C2 at the concrete input `ii/V` with key C major. -/
theorem c2_chain_recursion_witness :
    (HarmonyTypes.NumeralChain.parse ("ii" ++ "/" ++ "V") ⟨⟨0, 0⟩, .major⟩ =
      match HarmonyTypes.NumeralChain.parse ("V") ⟨⟨0, 0⟩, .major⟩ with
      | .error e => .error e
      | .ok tail =>
          match HarmonyTypes.SimpleNumeral.from_string ("ii") tail.head.key_if_tonicized with
          | .error e => .error e
          | .ok head => .ok (.mk head (some tail) ⟨⟨0, 0⟩, .major⟩)) ∧
    (HarmonyTypes.NumeralChain.parse ("V") ⟨⟨0, 0⟩, .major⟩ =
      match HarmonyTypes.SimpleNumeral.from_string ("V") ⟨⟨0, 0⟩, .major⟩ with
      | .error e => .error e
      | .ok head => .ok (.mk head none ⟨⟨0, 0⟩, .major⟩)) :=
  ⟨c2_chain_recursion.1 ("ii") ("V") ⟨⟨0, 0⟩, .major⟩ (by decide),
   c2_chain_recursion.2 ("V") ⟨⟨0, 0⟩, .major⟩ (by decide)⟩

/-- Claim C3: `SingleNumeralParts.parse("bII6")` yields exactly
modifiers `b`, roman numeral `II`, figbass `6` and empty form, added and
replacement tones; `parse("V7(+2)")` yields figbass `7`, added tones `+2`
and empty modifiers, form and replacement tones. -/
theorem c3_single_numeral_examples :
    Experiment.SingleNumeralParts.parse ("bII6") =
      .ok ⟨"b", "II", "", "6", "", ""⟩ ∧
    Experiment.SingleNumeralParts.parse ("V7(+2)") =
      .ok ⟨"", "V", "", "7", "+2", ""⟩ := by decide

/-- Claim C4: degree addition composes the 0-based numbers modulo 7 and
takes the second operand alteration; subtraction mirrors it. -/
theorem c4_degree_arithmetic :
    ∀ (a b : Experiment.Degree),
      (a + b).number = ((a.number - 1) + (b.number - 1)) % 7 + 1 ∧
      (a + b).alteration = b.alteration ∧
      (a - b).number = ((a.number - 1) - (b.number - 1)) % 7 + 1 ∧
      (a - b).alteration = b.alteration :=
  fun _ _ => ⟨rfl, rfl, rfl, rfl⟩

/-- Claim C5 names the intended behaviour, but the code cannot produce it:
`Degree.numeral_scale_degree_dict` is bound to `typing.ClassVar[{...}]`, so
the `.get` call in `parse_numeral_degree` raises `AttributeError` on every
regex-matching input — here evaluated at `#II`, which the claim says parses
to number 2 with alteration +1. -/
theorem c5_attribute_error_on_sharp_ii :
    Experiment.Degree.parse_numeral_degree ("#II") =
      .error (.attributeError "get") := by decide

/-- Claim C6 is false on the code: `parse_arabic_degree("9")` builds a
Degree with number 9, outside 1..7 (the digits convert without modulo
reduction). -/
theorem c6_counterexample :
    Experiment.Degree.parse_arabic_degree ("9") = .ok ⟨9, 0⟩ ∧
    ¬ (1 ≤ (9 : Int) ∧ (9 : Int) ≤ 7) := by decide

/-- Claim C6 amended: degrees produced by addition and subtraction always
have number in 1..7; `parse_arabic_degree` keeps the written number
unreduced, and `parse_numeral_degree` never returns a Degree at all. -/
theorem c6_amended_bounds :
    (∀ (a b : Experiment.Degree),
      (1 ≤ (a + b).number ∧ (a + b).number ≤ 7) ∧
      (1 ≤ (a - b).number ∧ (a - b).number ≤ 7)) ∧
    (∀ (s : String),
      Experiment.exceptIsOk (Experiment.Degree.parse_numeral_degree s) = false) := by
  constructor
  · intro a b
    have e1 : (a + b).number = ((a.number - 1) + (b.number - 1)) % 7 + 1 := rfl
    have e2 : (a - b).number = ((a.number - 1) - (b.number - 1)) % 7 + 1 := rfl
    have h1 := Int.emod_nonneg ((a.number - 1) + (b.number - 1)) (by norm_num : (7 : Int) ≠ 0)
    have h2 := Int.emod_lt_of_pos ((a.number - 1) + (b.number - 1)) (by norm_num : (0 : Int) < 7)
    have h3 := Int.emod_nonneg ((a.number - 1) - (b.number - 1)) (by norm_num : (7 : Int) ≠ 0)
    have h4 := Int.emod_lt_of_pos ((a.number - 1) - (b.number - 1)) (by norm_num : (0 : Int) < 7)
    rw [e1, e2]
    omega
  · intro s
    cases hnd : Experiment.ndMatches s.toList <;>
      simp [Experiment.Degree.parse_numeral_degree, Experiment.exceptIsOk,
        String.toList] at hnd ⊢ <;> simp [hnd]

/-- Claim C7: a SimpleNumeral built by `from_string` has quality `major`
exactly when the numeral string satisfies `isupper()`, and
`key_if_tonicized()` is a key on the resolved root whose mode is major for
major quality and natural minor for minor quality. -/
theorem c7_quality_and_tonicization :
    ∀ (s : String) (key : HarmonyTypes.Key) (sn : HarmonyTypes.SimpleNumeral),
      HarmonyTypes.SimpleNumeral.from_string s key = .ok sn →
      ((sn.quality = .major) ↔ HarmonyTypes.pyIsUpper s = true) ∧
      sn.key_if_tonicized.tonic = sn.root ∧
      (sn.quality = .major → sn.key_if_tonicized.mode = .major) ∧
      (sn.quality = .minor → sn.key_if_tonicized.mode = .natural_minor) := by
  intro s key sn h
  simp only [HarmonyTypes.SimpleNumeral.from_string] at h
  cases hd : HarmonyTypes.Degree.from_string s with
  | error e => rw [hd] at h; cases h
  | ok d =>
      rw [hd] at h
      dsimp only at h
      injection h with h2
      subst h2
      by_cases hu : HarmonyTypes.pyIsUpper s = true <;>
        simp [hu, HarmonyTypes.SimpleNumeral.key_if_tonicized,
          HarmonyTypes.SimpleNumeral.root]

/-- Witness for C7: the numeral `V` in C major is a major-quality numeral
whose tonicized key sits on its root. -/
theorem c7_quality_and_tonicization_witness :
    ((HarmonyTypes.SimpleNumeral.mk ("V") ⟨⟨0, 0⟩, .major⟩ ⟨5, 0⟩ .major).quality
        = .major ↔ HarmonyTypes.pyIsUpper ("V") = true) ∧
    (HarmonyTypes.SimpleNumeral.mk ("V") ⟨⟨0, 0⟩, .major⟩ ⟨5, 0⟩
        .major).key_if_tonicized.tonic =
      (HarmonyTypes.SimpleNumeral.mk ("V") ⟨⟨0, 0⟩, .major⟩ ⟨5, 0⟩ .major).root ∧
    ((HarmonyTypes.SimpleNumeral.mk ("V") ⟨⟨0, 0⟩, .major⟩ ⟨5, 0⟩ .major).quality
        = .major →
      (HarmonyTypes.SimpleNumeral.mk ("V") ⟨⟨0, 0⟩, .major⟩ ⟨5, 0⟩
          .major).key_if_tonicized.mode = .major) ∧
    ((HarmonyTypes.SimpleNumeral.mk ("V") ⟨⟨0, 0⟩, .major⟩ ⟨5, 0⟩ .major).quality
        = .minor →
      (HarmonyTypes.SimpleNumeral.mk ("V") ⟨⟨0, 0⟩, .major⟩ ⟨5, 0⟩
          .major).key_if_tonicized.mode = .natural_minor) :=
  c7_quality_and_tonicization ("V") ⟨⟨0, 0⟩, .major⟩
    (HarmonyTypes.SimpleNumeral.mk ("V") ⟨⟨0, 0⟩, .major⟩ ⟨5, 0⟩ .major) (by decide)

/-- Claim C8: whenever the single-numeral regex rejects a string (no match
of the anchored pattern, which also covers trailing characters and a
parenthesized group matching neither alternative), `parse` raises the
structured error carrying the raw string and returns no partial object. -/
theorem c8_parse_failure :
    ∀ (s : String), Experiment.SingleNumeralParts.snMatch s.toList = none →
      Experiment.SingleNumeralParts.parse s = .error (.noRegexMatch s) := by
  intro s h
  simp only [String.toList] at h
  simp [Experiment.SingleNumeralParts.parse, String.toList, h]

/-- Witness for C8 at the rejected input `x`. -/
theorem c8_parse_failure_witness :
    Experiment.SingleNumeralParts.parse ("x") = .error (.noRegexMatch ("x")) :=
  c8_parse_failure ("x") (by decide)

/-- Claim C9 is false on the code: in `Numeral.from_df` the `root` and
`bass_note` columns do not go through `standardize_input` but through a
bare `int(...)`, so a NaN `root` raises ValueError instead of yielding an
empty list. -/
theorem c9_counterexample :
    HarmonyTypes.from_df_toneFields (.str ("1,2")) .nan .nan (.floatVal 0) =
      .error (.valueError ("cannot convert float NaN to integer")) := by decide

/-- Claim C9 amended: the claimed normalization (NaN to empty list, float
to one-element list, tuple to list, comma-separated string to its integers,
other types to TypeError) holds for the fields passed through
`standardize_input` — `chord_tones` and `added_tones` — while `root` and
`bass_note` are converted with `int(...)` directly, so NaN there raises. -/
theorem c9_amended_normalization :
    HarmonyTypes.standardize_input .nan = .ok [] ∧
    (∀ (x : Int), HarmonyTypes.standardize_input (.floatVal x) = .ok [x]) ∧
    (∀ (l : List Int), HarmonyTypes.standardize_input (.tup l) = .ok l) ∧
    (∀ (s : String),
      ((HarmonyTypes.pySplitComma s).all
        (fun p => (HarmonyTypes.pyParseInt p).isSome)) = true →
      HarmonyTypes.standardize_input (.str s) =
        .ok ((HarmonyTypes.pySplitComma s).filterMap HarmonyTypes.pyParseInt)) ∧
    (∀ (t : String),
      HarmonyTypes.standardize_input (.other t) = .error (.typeError t)) ∧
    HarmonyTypes.from_df_toneFields (.tup [1]) .nan .nan (.floatVal 0) =
      .error (.valueError ("cannot convert float NaN to integer")) := by
  refine ⟨rfl, fun x => rfl, fun l => rfl, ?_, fun t => rfl, by decide⟩
  intro s h
  simpa [HarmonyTypes.standardize_input] using HarmonyTypes.intListOfStrs_ok _ h

/-- Witness for C9 at the concrete cell value `"3,4"`. -/
theorem c9_amended_normalization_witness :
    HarmonyTypes.standardize_input (.str ("3,4")) =
      .ok ((HarmonyTypes.pySplitComma ("3,4")).filterMap
        HarmonyTypes.pyParseInt) :=
  c9_amended_normalization.2.2.2.1 ("3,4") (by decide)

/-- Claim C10: the parenthesized group of the numeral grammar may be empty,
so `V()` parses with empty added and replacement tones. -/
theorem c10_empty_parentheses :
    Experiment.SingleNumeralParts.parse ("V()") =
      .ok ⟨"", "V", "", "", "", ""⟩ := by decide
